import Mathlib

/-!
Verification of the moesif-express governance decision core and data
utilities.

The governance rules manager (`RuleStore`, `CohortEvaluator`,
`RequestMatcher`, `RuleMerger`, `TemplateInterpolator`) is modelled from
the specification, since only its tests ship in the repository; the data
utilities (`_startWithJson`, `decompressIfNeeded`) are translated directly
from `lib/dataUtils.js`.
-/

namespace Moesif

/-! ### Association lists (JS-object-like string maps) -/

/-- Lookup of a key in an association list, first binding wins
(JS object property access). -/
def lookupAssoc {α : Type} (m : List (String × α)) (k : String) : Option α :=
  (m.find? (fun p => p.1 == k)).map (fun p => p.2)

/-- Set a key in an association list: replace the binding in place when the
key is present, append otherwise (JS `obj[k] = v`). -/
def setAssoc : List (String × String) → String → String → List (String × String)
  | [], k, v => [(k, v)]
  | p :: rest, k, v => if p.1 = k then (k, v) :: rest else p :: setAssoc rest k v

/-- Shallow merge: write every binding of `new_` into `base`,
last writer wins per key (lodash `assign` on string maps). -/
def mergeAssoc (base new_ : List (String × String)) : List (String × String) :=
  new_.foldl (fun acc p => setAssoc acc p.1 p.2) base

theorem lookupAssoc_set_self (m : List (String × String)) (k v : String) :
    lookupAssoc (setAssoc m k v) k = some v := by
  induction m with
  | nil => simp [lookupAssoc, setAssoc, List.find?]
  | cons p rest ih =>
    by_cases hp : p.1 = k
    · simp [lookupAssoc, setAssoc, hp, List.find?]
    · have hpb : (p.1 == k) = false := by simpa using hp
      simpa [lookupAssoc, setAssoc, hp, List.find?, hpb] using ih

theorem lookupAssoc_set_other (m : List (String × String)) (k v k' : String)
    (hk : k' ≠ k) : lookupAssoc (setAssoc m k v) k' = lookupAssoc m k' := by
  have hkk' : (k == k') = false := by
    simp only [beq_eq_false_iff_ne, ne_eq]
    exact fun hc => hk hc.symm
  induction m with
  | nil => simp [lookupAssoc, setAssoc, List.find?, hkk']
  | cons p rest ih =>
    by_cases hp : p.1 = k
    · simp [lookupAssoc, setAssoc, hp, List.find?, hkk']
    · by_cases hp' : p.1 = k'
      · have hpb : (p.1 == k') = true := by simpa using hp'
        simp [lookupAssoc, setAssoc, hp, List.find?, hpb]
      · have hpb : (p.1 == k') = false := by simpa using hp'
        simpa [lookupAssoc, setAssoc, hp, List.find?, hpb] using ih

theorem lookupAssoc_merge_untouched (new_ : List (String × String))
    (base : List (String × String)) (k : String) (h : ∀ p ∈ new_, p.1 ≠ k) :
    lookupAssoc (mergeAssoc base new_) k = lookupAssoc base k := by
  induction new_ generalizing base with
  | nil => rfl
  | cons p rest ih =>
    have hp : p.1 ≠ k := h p (by simp)
    have hrest : ∀ q ∈ rest, q.1 ≠ k := fun q hq => h q (by simp [hq])
    unfold mergeAssoc
    simp only [List.foldl_cons]
    have step := ih (setAssoc base p.1 p.2) hrest
    unfold mergeAssoc at step
    rw [step]
    exact lookupAssoc_set_other base p.1 p.2 k (fun hc => hp hc.symm)

/-! ### TemplateInterpolator -/

/-- The opening-brace character. -/
def lbrace : Char := Char.ofNat 123

/-- The closing-brace character. -/
def rbrace : Char := Char.ofNat 125

/-- The vertical-bar character separating a placeholder name from its
default. -/
def pipeChar : Char := Char.ofNat 124

/-- A parsed piece of a template string: literal text, or a placeholder
with a name and an optional default. -/
inductive Segment where
  | lit : String → Segment
  | placeholder : String → Option String → Segment
deriving DecidableEq, Repr

/-- Modelled from the spec: scan for the closing double brace of a
placeholder, returning the inner characters and the remainder, or `none`
when the placeholder is unterminated. -/
def scanInner : List Char → Option (List Char × List Char)
  | [] => none
  | c :: rest =>
    if c = rbrace ∧ rest.head? = some rbrace then some ([], rest.tail)
    else (scanInner rest).map (fun p => (c :: p.1, p.2))

/-- Whether a character is not the placeholder-default separator. -/
def notPipe (c : Char) : Bool := c != pipeChar

/-- Modelled from the spec: split a placeholder's inner text at the first
vertical bar into a name and an optional default. -/
def mkPlaceholder (inner : List Char) : Segment :=
  if pipeChar ∈ inner then
    Segment.placeholder (String.mk (inner.takeWhile notPipe))
      (some (String.mk ((inner.dropWhile notPipe).tail)))
  else Segment.placeholder (String.mk inner) none

/-- Modelled from the spec: fuel-driven scan splitting a template's
characters into literal segments and `\x7b\x7bname\x7d\x7d` /
`\x7b\x7bname|default\x7d\x7d` placeholder segments; each step consumes
at least one character, so the character count is sufficient fuel. -/
def scanTemplateFuel : Nat → List Char → List Segment
  | 0, _ => []
  | _ + 1, [] => []
  | fuel + 1, c :: rest =>
    if c = lbrace ∧ rest.head? = some lbrace then
      match scanInner rest.tail with
      | some (inner, rest') => mkPlaceholder inner :: scanTemplateFuel fuel rest'
      | none => [Segment.lit (String.mk (c :: rest))]
    else Segment.lit (String.mk [c]) :: scanTemplateFuel fuel rest

/-- Modelled from the spec: split a template's characters into segments. -/
def scanTemplate (l : List Char) : List Segment := scanTemplateFuel l.length l

/-- Modelled from the spec: resolve one segment against the variable map —
a variable's value when present, otherwise the declared default, otherwise
the literal text `UNKNOWN`. -/
def resolveSegment (vars : List (String × String)) : Segment → String
  | Segment.lit s => s
  | Segment.placeholder name dflt =>
    match lookupAssoc vars name with
    | some v => v
    | none => dflt.getD "UNKNOWN"

/-- Modelled from the spec: render a template string by resolving each of
its placeholders against the variable map. -/
def renderString (vars : List (String × String)) (s : String) : String :=
  String.join ((scanTemplate s.data).map (resolveSegment vars))

/-- A JSON-shaped value (rule response bodies). -/
inductive GovValue where
  | vstr : String → GovValue
  | vnum : Int → GovValue
  | vbool : Bool → GovValue
  | vnull : GovValue
  | vobj : List (String × GovValue) → GovValue
  | varr : List GovValue → GovValue
deriving Repr

mutual

/-- Modelled from the spec: render every string inside a JSON-shaped value,
walking objects and sequences structurally; other leaves pass through. -/
def renderValue (vars : List (String × String)) : GovValue → GovValue
  | GovValue.vstr s => GovValue.vstr (renderString vars s)
  | GovValue.vobj fields => GovValue.vobj (renderFields vars fields)
  | GovValue.varr xs => GovValue.varr (renderElems vars xs)
  | v => v

/-- Render the fields of a JSON-shaped object. -/
def renderFields (vars : List (String × String)) :
    List (String × GovValue) → List (String × GovValue)
  | [] => []
  | (k, v) :: rest => (k, renderValue vars v) :: renderFields vars rest

/-- Render the elements of a JSON-shaped sequence. -/
def renderElems (vars : List (String × String)) : List GovValue → List GovValue
  | [] => []
  | v :: rest => renderValue vars v :: renderElems vars rest

end

/-! ### Governance rule data model -/

/-- Modelled from the spec: one condition of a regex rule — a dotted `path`
into the request and a regex pattern `value`. -/
structure Condition where
  path : String
  value : String
deriving DecidableEq, Repr

/-- Modelled from the spec: a rule's optional response template — status,
headers and a JSON-shaped body. -/
structure RuleResponse where
  status : Option Nat := none
  headers : List (String × String) := []
  body : Option GovValue := none
deriving Repr

/-- Modelled from the spec: a governance rule (`_id`, `type`, `applied_to`,
`block`, response template, declared variables, and regex condition groups
for regex rules). Field names follow the JSON shapes in the tests. -/
structure Rule where
  _id : String
  type : String
  applied_to : String := "matching"
  block : Bool := false
  response : RuleResponse := {}
  varNames : List String := []
  regex_config : List (List Condition) := []
deriving Repr

/-- Modelled from the spec: one cohort assignment in the config — the
assigned rule's id (field `rules` in the config JSON) and the per-identity
variable values for templating. -/
structure RuleAssignment where
  rules : String
  values : List (String × String) := []
deriving Repr

/-- Modelled from the spec: the cohort configuration, keyed by user and by
company identifier. -/
structure GovConfig where
  user_rules : List (String × List RuleAssignment) := []
  company_rules : List (String × List RuleAssignment) := []
deriving Repr

/-- Modelled from the spec: the rule store, indexed by rule type; rebuilt
wholesale by `_cacheRules`. -/
structure RuleStore where
  userRules : List Rule := []
  companyRules : List Rule := []
  regexRules : List Rule := []
deriving Repr

/-- Modelled from the spec: bulk-replace the rule caches from a complete
rule list, splitting by rule type (the manager's `_cacheRules`). -/
def _cacheRules (rules : List Rule) : RuleStore :=
  { userRules := rules.filter (fun r => r.type == "user")
    companyRules := rules.filter (fun r => r.type == "company")
    regexRules := rules.filter (fun r => r.type == "regex") }

/-! ### CohortEvaluator -/

/-- Modelled from the spec: whether an identifier's assignment list
mentions the given rule id. -/
def isAssigned (assignments : List RuleAssignment) (ruleId : String) : Bool :=
  assignments.any (fun a => a.rules == ruleId)

/-- Modelled from the spec: the assignment list for a user identifier
(empty when the identifier is absent or not a key of `user_rules`). -/
def userAssignmentsOf (config : GovConfig) (userId : Option String) : List RuleAssignment :=
  match userId with
  | none => []
  | some uid => (lookupAssoc config.user_rules uid).getD []

/-- Modelled from the spec: the assignment list for a company identifier. -/
def companyAssignmentsOf (config : GovConfig) (companyId : Option String) : List RuleAssignment :=
  match companyId with
  | none => []
  | some cid => (lookupAssoc config.company_rules cid).getD []

/-- Modelled from the spec: the user rules applicable to a user id — empty
for an absent or empty id; otherwise every stored user rule whose id is
assigned to the user and has `applied_to` `matching`, or is not assigned
and has `applied_to` `not_matching`. -/
def getApplicableRulesForUserId (userId : Option String) (config : GovConfig)
    (store : RuleStore) : List Rule :=
  match userId with
  | none => []
  | some uid =>
    if uid = "" then []
    else
      let assigns := (lookupAssoc config.user_rules uid).getD []
      store.userRules.filter (fun r =>
        if isAssigned assigns r._id then r.applied_to == "matching"
        else r.applied_to == "not_matching")

/-- Modelled from the spec: the company rules applicable to a company id,
mirroring `getApplicableRulesForUserId`. -/
def getApplicableRulesForCompanyId (companyId : Option String) (config : GovConfig)
    (store : RuleStore) : List Rule :=
  match companyId with
  | none => []
  | some cid =>
    if cid = "" then []
    else
      let assigns := (lookupAssoc config.company_rules cid).getD []
      store.companyRules.filter (fun r =>
        if isAssigned assigns r._id then r.applied_to == "matching"
        else r.applied_to == "not_matching")

/-! ### RequestMatcher -/

/-- Modelled from the spec: a request is a resolvable map from dotted field
paths (e.g. `request.route`) to string values. -/
abbrev Request := List (String × String)

/-- Modelled from the spec: one condition matches when the path resolves on
the request and the resolved value matches the condition's pattern; an
unresolvable path makes the condition fail, never error. `m` is the
conventional regex matcher the core assumes (pattern, value). -/
def condMatches (m : String → String → Bool) (req : Request) (c : Condition) : Bool :=
  match lookupAssoc req c.path with
  | some v => m c.value v
  | none => false

/-- Modelled from the spec: a regex rule matches when some condition group
has all of its conditions match (groups OR'd, conditions AND'd). -/
def regexRuleMatches (m : String → String → Bool) (r : Rule) (req : Request) : Bool :=
  r.regex_config.any (fun g => g.all (condMatches m req))

/-- A simple concrete matcher for witnesses: the pattern matches when it
occurs as a substring of the value (enough for patterns with no regex
metacharacters). -/
def substrMatch (pattern value : String) : Bool :=
  (List.range (value.data.length + 1)).any (fun i => pattern.data.isPrefixOf (value.data.drop i))

/-! ### RuleMerger -/

/-- Modelled from the spec: the accumulator returned by `governRequest` —
status, headers, templated body, the id of the last blocking rule, and the
variable map accumulated from cohort assignments. -/
structure ResponseHolder where
  status : Option Nat := none
  headers : List (String × String) := []
  body : Option GovValue := none
  blocked_by : Option String := none
  vars : List (String × String) := []
deriving Repr

/-- An applicable rule paired with its per-identity assignment values
(empty for regex rules and unassigned cohort rules). -/
abbrev RulePair := Rule × List (String × String)

/-- Modelled from the spec: the per-identity values carried by an
assignment list for one rule id. -/
def assignmentValues (assignments : List RuleAssignment) (ruleId : String) :
    List (String × String) :=
  ((assignments.find? (fun a => a.rules == ruleId)).map (fun a => a.values)).getD []

/-- Modelled from the spec: apply one applicable rule to the holder — merge
assignment values into the variable map, shallow-merge response headers,
(their values rendered with the variables so far), and when the rule
blocks, set status, render the body with the variables so far, record
`blocked_by`, and force `Content-Type: application/json`. -/
def applyOneRule (h : ResponseHolder) (pr : RulePair) : ResponseHolder :=
  let r := pr.1
  let h1 : ResponseHolder := { h with vars := mergeAssoc h.vars pr.2 }
  let h2 : ResponseHolder :=
    { h1 with
      headers := mergeAssoc h1.headers
        (r.response.headers.map (fun p => (p.1, renderString h1.vars p.2))) }
  if r.block then
    { h2 with
      status := r.response.status
      body := r.response.body.map (renderValue h2.vars)
      blocked_by := some r._id
      headers := setAssoc h2.headers "Content-Type" "application/json" }
  else h2

/-- Modelled from the spec: the concatenated applicable-rule list in the
fixed category order regex, company, user, each rule paired with its
assignment values. -/
def governApplicablePairs (m : String → String → Bool) (store : RuleStore)
    (config : GovConfig) (userId companyId : Option String) (req : Request) :
    List RulePair :=
  (store.regexRules.filter (fun r => regexRuleMatches m r req)).map
      (fun r => (r, ([] : List (String × String))))
    ++ (getApplicableRulesForCompanyId companyId config store).map
      (fun r => (r, assignmentValues (companyAssignmentsOf config companyId) r._id))
    ++ (getApplicableRulesForUserId userId config store).map
      (fun r => (r, assignmentValues (userAssignmentsOf config userId) r._id))

/-- Modelled from the spec: the decision pipeline — fold every applicable
rule, in category order, into a fresh ResponseHolder. -/
def governRequest (m : String → String → Bool) (store : RuleStore)
    (config : GovConfig) (userId companyId : Option String) (req : Request) :
    ResponseHolder :=
  (governApplicablePairs m store config userId companyId req).foldl applyOneRule {}

/-- Modelled from the spec: bulk rule load — replaces the whole store. -/
def replaceRules (_store : RuleStore) (rules : List Rule) : RuleStore :=
  _cacheRules rules

/-! ### dataUtils (translated from `lib/dataUtils.js`) -/

/-- A request/response body as the data utilities see it: JS `null` or
`undefined`, a string, or a byte buffer. -/
inductive JsBody where
  | nullV : JsBody
  | str : String → JsBody
  | buf : List Nat → JsBody
deriving DecidableEq, Repr

/-- JS truthiness of a body: `null`/`undefined` and the empty string are
falsy; every Buffer (even empty) is truthy. -/
def jsFalsy : JsBody → Bool
  | JsBody.nullV => true
  | JsBody.str s => s = ""
  | JsBody.buf _ => false

/-- Node's one-byte ascii decode used by `body.slice(0, 1).toString('ascii')`
(the high bit is masked). -/
def sliceOneAscii (bytes : List Nat) : String :=
  String.mk ((bytes.take 1).map (fun b => Char.ofNat (b % 128)))

/-- The function `_startWithJson` from `lib/dataUtils.js`: take the first byte of a
buffer as ascii (otherwise the value itself), and when that is a non-empty
string, test whether its trimmed form starts with an opening brace or
bracket — but return `true` on every path. -/
def _startWithJson (body : JsBody) : Bool :=
  let str : JsBody :=
    match body with
    | JsBody.buf bytes => if jsFalsy body then body else JsBody.str (sliceOneAscii bytes)
    | b => b
  match str with
  | JsBody.str s =>
    if s ≠ "" then
      let newStr := s.trim
      if newStr.startsWith (String.mk [lbrace]) || newStr.startsWith "[" then true
      else true
    else true
  | _ => true

/-- JS `a || b` on strings: the first operand unless it is falsy (empty). -/
def jsOrStr (a b : String) : String :=
  if a = "" then b else a

/-- Header resolution in `decompressIfNeeded`:
`(headers[k1] || headers[k2]) || ''`. -/
def headerLookup2 (headers : List (String × String)) (k1 k2 : String) : String :=
  jsOrStr ((lookupAssoc headers k1).getD "") ((lookupAssoc headers k2).getD "")

/-- ASCII lowercasing of one character (JS `toLowerCase` on the ASCII
header strings this code handles). -/
def lowerChar (c : Char) : Char :=
  if 65 ≤ c.toNat ∧ c.toNat ≤ 90 then Char.ofNat (c.toNat + 32) else c

/-- ASCII lowercasing of a string. -/
def lowerString (s : String) : String := String.mk (s.data.map lowerChar)

/-- Whether one string occurs inside another (JS `indexOf(...) !== -1`). -/
def containsSubstr (s sub : String) : Bool :=
  (List.range (s.data.length + 1)).any (fun i => sub.data.isPrefixOf (s.data.drop i))

/-- The content-type gate of `decompressIfNeeded`: the resolved
`content-type` header, lowercased, contains `json`, `xml` or `text`. -/
def isTextContentType (headers : List (String × String)) : Bool :=
  let contentType := headerLookup2 headers "content-type" "Content-Type"
  if contentType ≠ "" then
    let ct := lowerString contentType
    containsSubstr ct "json" || containsSubstr ct "xml" || containsSubstr ct "text"
  else false

/-- The zlib and heuristic collaborators of `decompressIfNeeded`: the three
decompressors (`none` models a thrown error), the binary-buffer heuristic,
and utf8 decoding. -/
structure Zlib where
  gunzip : List Nat → Option (List Nat)
  inflate : List Nat → Option (List Nat)
  brotli : List Nat → Option (List Nat)
  isBinaryHeur : List Nat → Bool
  utf8 : List Nat → String

/-- The bytes of a body (`Buffer.isBuffer(body) ? body : Buffer.from(body)`). -/
def bodyBytes : JsBody → List Nat
  | JsBody.buf bytes => bytes
  | JsBody.str s => s.toUTF8.toList.map (fun b => b.toNat)
  | JsBody.nullV => []

/-- The decompression attempt chain of `decompressIfNeeded` (lines 40–78 of
`lib/dataUtils.js`): explicit encoding first, then the binary heuristics
with the cloudflare-brotli special case and gzip/deflate/brotli fallbacks. -/
def tryDecompress (z : Zlib) (buf : List Nat) (encoding server : String) :
    Option (List Nat) :=
  let isBinary := z.isBinaryHeur buf
  if encoding ≠ "" ∧ isBinary then
    if containsSubstr encoding "gzip" then z.gunzip buf
    else if containsSubstr encoding "deflate" then z.inflate buf
    else if containsSubstr encoding "br" then z.brotli buf
    else none
  else if isBinary then
    let cf := containsSubstr (lowerString server) "cloudflare"
    let d1 : Option (List Nat) := if cf then z.brotli buf else none
    let d2 := match d1 with | some x => some x | none => z.gunzip buf
    let d3 := match d2 with | some x => some x | none => z.inflate buf
    match d3 with
    | some x => some x
    | none => if cf then none else z.brotli buf
  else none

/-- The function `decompressIfNeeded` from `lib/dataUtils.js`: return a falsy body
unchanged; skip decompression entirely unless the content-type is
json/xml/text; otherwise run the decompression chain and utf8-decode a
successful result, returning the original body when nothing decompressed. -/
def decompressIfNeeded (z : Zlib) (body : JsBody)
    (headers : List (String × String)) : JsBody :=
  if jsFalsy body then body
  else
    let buf := bodyBytes body
    let encoding := headerLookup2 headers "content-encoding" "Content-Encoding"
    let server := headerLookup2 headers "server" "Server"
    if ¬ isTextContentType headers then body
    else
      match tryDecompress z buf encoding server with
      | some d => JsBody.str (z.utf8 d)
      | none => body

/-! ### Example rules and scenarios (from the repository's tests) -/

/-- The blocking regex rule of the integration tests. -/
def regexRuleEx : Rule :=
  { _id := "regexRule", type := "regex", applied_to := "matching",
    regex_config := [[⟨"request.route", "/api/blocked"⟩]],
    block := true,
    response :=
      { status := some 403,
        body := some (GovValue.vobj [("reason", GovValue.vstr "regex blocked")]) } }

/-- The non-blocking company header rule of the integration tests. -/
def companyHeaderRuleEx : Rule :=
  { _id := "companyHeaderRule", type := "company", applied_to := "matching",
    response := { headers := [("X-Company-Plan", "\x7b\x7bcompany.plan|Free\x7d\x7d")] },
    varNames := ["company.plan"] }

/-- The not-matching user header rule of the integration tests. -/
def userHeaderRuleEx : Rule :=
  { _id := "userHeaderRule", type := "user", applied_to := "not_matching",
    response := { headers := [("X-Unused", "1")] } }

/-- The blocking user rule of the integration tests. -/
def userBlockRuleEx : Rule :=
  { _id := "userBlockRule", type := "user", applied_to := "matching",
    block := true,
    response :=
      { status := some 401,
        body := some (GovValue.vobj
          [("message", GovValue.vstr "Hello \x7b\x7buser.name|Friend\x7d\x7d"),
           ("missing", GovValue.vstr "\x7b\x7bnot.provided\x7d\x7d")]) },
    varNames := ["user.name"] }

/-- The integration-test rule store. -/
def storeEx : RuleStore :=
  _cacheRules [regexRuleEx, companyHeaderRuleEx, userHeaderRuleEx, userBlockRuleEx]

/-- The integration-test cohort config. -/
def configEx : GovConfig :=
  { user_rules :=
      [("user123", [⟨"userBlockRule", [("user.name", "Alice")]⟩, ⟨"userHeaderRule", []⟩])],
    company_rules := [("companyABC", [⟨"companyHeaderRule", [("company.plan", "Gold")]⟩])] }

/-- The mock request for route `/api/blocked`. -/
def reqEx : Request := [("request.route", "/api/blocked")]

/-- A store holding only the two non-blocking header rules. -/
def storeNB : RuleStore := _cacheRules [companyHeaderRuleEx, userHeaderRuleEx]

/-- A matching user rule from the cohort-only tests. -/
def ruleUserInEx : Rule := { _id := "ruleUserIn", type := "user", applied_to := "matching" }

/-- A not-matching user rule assigned to the cohort in the cohort-only
tests. -/
def ruleUserInExcludeEx : Rule :=
  { _id := "ruleUserInExclude", type := "user", applied_to := "not_matching" }

/-- A not-matching user rule outside the cohort in the cohort-only tests. -/
def ruleUserOutIncludeEx : Rule :=
  { _id := "ruleUserOutInclude", type := "user", applied_to := "not_matching" }

/-- A matching company rule from the cohort-only tests. -/
def ruleCompanyInEx : Rule :=
  { _id := "ruleCompanyIn", type := "company", applied_to := "matching" }

/-- The cohort-only test rule store. -/
def cohortStoreEx : RuleStore :=
  _cacheRules [ruleUserInEx, ruleUserInExcludeEx, ruleUserOutIncludeEx, ruleCompanyInEx]

/-- The cohort-only test config assigning two rules to `user123` and one to
`companyABC`. -/
def cohortConfigEx : GovConfig :=
  { user_rules := [("user123", [⟨"ruleUserIn", []⟩, ⟨"ruleUserInExclude", []⟩])],
    company_rules := [("companyABC", [⟨"ruleCompanyIn", []⟩])] }

/-- Zlib collaborators whose decompressors always fail, for witnesses on
paths that never decompress. -/
def zlibNoop : Zlib :=
  { gunzip := fun _ => none, inflate := fun _ => none, brotli := fun _ => none,
    isBinaryHeur := fun _ => true, utf8 := fun _ => "" }

/-- The gzip-compressed PNG scenario of the decompression unit test. -/
def pngHeaders : List (String × String) :=
  [("content-encoding", "gzip"), ("content-type", "image/png")]

/-- A binary body standing for the compressed PNG buffer. -/
def pngBody : JsBody := JsBody.buf [137, 80, 78, 71]

/-! ### Claims -/

/-- Claim C5: for every identifier that is null, undefined, or empty, and
every config and store, `getApplicableRulesForUserId` and
`getApplicableRulesForCompanyId` return an empty list. -/
theorem applicable_rules_absent_identifier_empty (config : GovConfig) (store : RuleStore) :
    getApplicableRulesForUserId none config store = []
    ∧ getApplicableRulesForUserId (some "") config store = []
    ∧ getApplicableRulesForCompanyId none config store = []
    ∧ getApplicableRulesForCompanyId (some "") config store = [] :=
  ⟨rfl, rfl, rfl, rfl⟩

/-- Claim C8: the rule store is a pure snapshot — replacing the rules with
the same set twice equals replacing them once, and `governRequest` over the
twice-replaced store yields the identical ResponseHolder. -/
theorem replace_rules_idempotent_govern (m : String → String → Bool)
    (s : RuleStore) (rules : List Rule) (config : GovConfig)
    (uid cid : Option String) (req : Request) :
    replaceRules (replaceRules s rules) rules = replaceRules s rules
    ∧ governRequest m (replaceRules (replaceRules s rules) rules) config uid cid req
      = governRequest m (replaceRules s rules) config uid cid req :=
  ⟨rfl, rfl⟩

/-- Claim C9: `_startWithJson` returns `true` on every input — both the
branch where the trimmed string starts with a brace or bracket and the
fall-through branch return `true`. -/
theorem startWithJson_always_true (body : JsBody) : _startWithJson body = true := by
  cases body <;> simp [_startWithJson, jsFalsy]

/-- Claim C10: `decompressIfNeeded` returns its body argument unchanged
whenever the body is falsy or the resolved content-type, lowercased,
contains none of `json`, `xml`, `text` — regardless of the
content-encoding header or whether the body is binary. -/
theorem decompressIfNeeded_skips (z : Zlib) (body : JsBody)
    (headers : List (String × String))
    (h : jsFalsy body = true ∨ isTextContentType headers = false) :
    decompressIfNeeded z body headers = body := by
  unfold decompressIfNeeded
  rcases h with h | h
  · simp [h]
  · by_cases hb : jsFalsy body = true
    · simp [hb]
    · simp [hb, h]

/-- Witness for C10: the gzip-compressed PNG buffer with content-type
`image/png` is returned unchanged. -/
theorem decompressIfNeeded_skips_witness :
    isTextContentType pngHeaders = false
    ∧ decompressIfNeeded zlibNoop pngBody pngHeaders = pngBody :=
  ⟨by decide, decompressIfNeeded_skips zlibNoop pngBody pngHeaders (Or.inr (by decide))⟩

/-- The cohort filter includes a stored rule exactly when assignment and
polarity agree. -/
theorem mem_applicable_filter_iff (rules : List Rule) (assigns : List RuleAssignment)
    (r : Rule) (hmem : r ∈ rules) :
    r ∈ rules.filter (fun r =>
        if isAssigned assigns r._id then r.applied_to == "matching"
        else r.applied_to == "not_matching") ↔
      (isAssigned assigns r._id = true ∧ r.applied_to = "matching")
      ∨ (isAssigned assigns r._id = false ∧ r.applied_to = "not_matching") := by
  rw [List.mem_filter]
  simp only [hmem, true_and]
  by_cases ha : isAssigned assigns r._id = true
  · simp [ha, beq_iff_eq]
  · have ha' : isAssigned assigns r._id = false := by simpa using ha
    simp [ha', beq_iff_eq]

/-- Claim C1: for every stored rule of the matching type and every
non-empty identifier, the applicable list includes the rule exactly when
the rule's id is listed in the identifier's assignments and its polarity is
`matching`, or the id is not listed (including when the identifier has no
assignments at all) and its polarity is `not_matching`. -/
theorem applicable_rules_membership_iff (config : GovConfig) (store : RuleStore)
    (uid cid : String) (hu : uid ≠ "") (hc : cid ≠ "") (ru rc : Rule) :
    (ru ∈ store.userRules →
      (ru ∈ getApplicableRulesForUserId (some uid) config store ↔
        (isAssigned (userAssignmentsOf config (some uid)) ru._id = true
            ∧ ru.applied_to = "matching")
        ∨ (isAssigned (userAssignmentsOf config (some uid)) ru._id = false
            ∧ ru.applied_to = "not_matching")))
    ∧ (rc ∈ store.companyRules →
      (rc ∈ getApplicableRulesForCompanyId (some cid) config store ↔
        (isAssigned (companyAssignmentsOf config (some cid)) rc._id = true
            ∧ rc.applied_to = "matching")
        ∨ (isAssigned (companyAssignmentsOf config (some cid)) rc._id = false
            ∧ rc.applied_to = "not_matching"))) := by
  constructor
  · intro hmem
    rw [getApplicableRulesForUserId, if_neg hu]
    exact mem_applicable_filter_iff store.userRules
      (userAssignmentsOf config (some uid)) ru hmem
  · intro hmem
    rw [getApplicableRulesForCompanyId, if_neg hc]
    exact mem_applicable_filter_iff store.companyRules
      (companyAssignmentsOf config (some cid)) rc hmem

/-- Witness for C1 at the cohort-only test scenario: `ruleUserIn` is
assigned to `user123` with polarity matching, hence applicable. -/
theorem applicable_rules_membership_iff_witness :
    ruleUserInEx ∈ getApplicableRulesForUserId (some "user123") cohortConfigEx cohortStoreEx ↔
      (isAssigned (userAssignmentsOf cohortConfigEx (some "user123")) ruleUserInEx._id = true
          ∧ ruleUserInEx.applied_to = "matching")
      ∨ (isAssigned (userAssignmentsOf cohortConfigEx (some "user123")) ruleUserInEx._id = false
          ∧ ruleUserInEx.applied_to = "not_matching") :=
  (applicable_rules_membership_iff cohortConfigEx cohortStoreEx "user123" "companyABC"
    (by decide) (by decide) ruleUserInEx ruleCompanyInEx).1 (List.Mem.head _)

/-- A condition matches exactly when its path resolves on the request and
the matcher accepts the resolved value. -/
theorem condMatches_iff (m : String → String → Bool) (req : Request) (c : Condition) :
    condMatches m req c = true ↔
      ∃ v, lookupAssoc req c.path = some v ∧ m c.value v = true := by
  unfold condMatches
  cases h : lookupAssoc req c.path with
  | none => simp
  | some v => simp

/-- Claim C6: a regex rule matches exactly when some condition group has
every condition match — a condition matching when the value resolved at its
path matches its pattern — and an unresolvable path makes a condition fail
rather than raising an error. -/
theorem regex_rule_match_iff (m : String → String → Bool) (r : Rule) (req : Request) :
    (regexRuleMatches m r req = true ↔
      ∃ g ∈ r.regex_config, ∀ c ∈ g,
        ∃ v, lookupAssoc req c.path = some v ∧ m c.value v = true)
    ∧ ∀ c : Condition, lookupAssoc req c.path = none → condMatches m req c = false := by
  constructor
  · unfold regexRuleMatches
    simp [List.any_eq_true, List.all_eq_true, condMatches_iff]
  · intro c hc
    unfold condMatches
    rw [hc]

/-- Witness for C6: the integration regex rule matches the `/api/blocked`
request, and a condition over an unresolvable path fails. -/
theorem regex_rule_match_iff_witness :
    regexRuleMatches substrMatch regexRuleEx reqEx = true
    ∧ condMatches substrMatch [] (Condition.mk "request.route" "/api/blocked") = false := by
  constructor
  · exact (regex_rule_match_iff substrMatch regexRuleEx reqEx).1.mpr
      ⟨[⟨"request.route", "/api/blocked"⟩], by simp [regexRuleEx], by
        intro c hc
        simp at hc
        subst hc
        exact ⟨"/api/blocked", rfl, by decide⟩⟩
  · exact (regex_rule_match_iff substrMatch regexRuleEx []).2
      ⟨"request.route", "/api/blocked"⟩ rfl

/-- Folding non-blocking rules leaves status, body and blocked_by
untouched. -/
theorem foldl_no_block_fields (l : List RulePair) (h0 : ResponseHolder)
    (h : ∀ pr ∈ l, pr.1.block = false) :
    (l.foldl applyOneRule h0).status = h0.status
    ∧ (l.foldl applyOneRule h0).body = h0.body
    ∧ (l.foldl applyOneRule h0).blocked_by = h0.blocked_by := by
  induction l generalizing h0 with
  | nil => exact ⟨rfl, rfl, rfl⟩
  | cons pr rest ih =>
    have hpr : pr.1.block = false := h pr (by simp)
    have hrest : ∀ q ∈ rest, q.1.block = false := fun q hq => h q (by simp [hq])
    simp only [List.foldl_cons]
    have step := ih (applyOneRule h0 pr) hrest
    have happ : (applyOneRule h0 pr).status = h0.status
        ∧ (applyOneRule h0 pr).body = h0.body
        ∧ (applyOneRule h0 pr).blocked_by = h0.blocked_by := by
      unfold applyOneRule
      simp [hpr]
    exact ⟨step.1.trans happ.1, step.2.1.trans happ.2.1, step.2.2.trans happ.2.2⟩

/-- Claim C7: `governRequest` is a total function of its well-formed
inputs, and when no applicable rule has `block` set, the returned holder's
status, body and blocked_by remain unset. -/
theorem govern_no_block_leaves_unset (m : String → String → Bool)
    (store : RuleStore) (config : GovConfig) (uid cid : Option String) (req : Request)
    (h : ∀ pr ∈ governApplicablePairs m store config uid cid req, pr.1.block = false) :
    (governRequest m store config uid cid req).status = none
    ∧ (governRequest m store config uid cid req).body = none
    ∧ (governRequest m store config uid cid req).blocked_by = none := by
  unfold governRequest
  exact foldl_no_block_fields _ {} h

/-- Witness for C7: with only the two non-blocking header rules stored,
governing the integration request leaves status, body and blocked_by
unset. -/
theorem govern_no_block_leaves_unset_witness :
    (governRequest substrMatch storeNB configEx (some "otherUser") (some "companyABC") reqEx).status = none
    ∧ (governRequest substrMatch storeNB configEx (some "otherUser") (some "companyABC") reqEx).body = none
    ∧ (governRequest substrMatch storeNB configEx (some "otherUser") (some "companyABC") reqEx).blocked_by = none := by
  refine govern_no_block_leaves_unset substrMatch storeNB configEx
    (some "otherUser") (some "companyABC") reqEx ?_
  intro pr hpr
  have hl : governApplicablePairs substrMatch storeNB configEx
      (some "otherUser") (some "companyABC") reqEx
      = [(companyHeaderRuleEx, [("company.plan", "Gold")]), (userHeaderRuleEx, [])] := rfl
  rw [hl] at hpr
  simp only [List.mem_cons, List.not_mem_nil, or_false] at hpr
  rcases hpr with rfl | rfl <;> rfl

/-- The headers produced by applying one rule: the rule's rendered response
headers merged over the holder's, plus the forced Content-Type when the
rule blocks. -/
theorem applyOneRule_headers (h0 : ResponseHolder) (pr : RulePair) :
    (applyOneRule h0 pr).headers =
      (if pr.1.block
        then setAssoc (mergeAssoc h0.headers
          (pr.1.response.headers.map
            (fun p => (p.1, renderString (mergeAssoc h0.vars pr.2) p.2))))
          "Content-Type" "application/json"
        else mergeAssoc h0.headers
          (pr.1.response.headers.map
            (fun p => (p.1, renderString (mergeAssoc h0.vars pr.2) p.2)))) := by
  unfold applyOneRule
  by_cases hb : pr.1.block = true <;> simp [hb]

/-- Applying one rule that does not mention a key preserves that key's
header value, unless the rule blocks and the key is Content-Type. -/
theorem applyOneRule_header_untouched (h0 : ResponseHolder) (pr : RulePair)
    (k v : String) (hk : lookupAssoc h0.headers k = some v)
    (hunt : lookupAssoc pr.1.response.headers k = none)
    (hct : k ≠ "Content-Type" ∨ pr.1.block = false) :
    lookupAssoc (applyOneRule h0 pr).headers k = some v := by
  have hkeys : ∀ q ∈ pr.1.response.headers.map
      (fun p => (p.1, renderString (mergeAssoc h0.vars pr.2) p.2)), q.1 ≠ k := by
    intro q hq
    simp only [List.mem_map] at hq
    obtain ⟨p, hp, rfl⟩ := hq
    have hfind : pr.1.response.headers.find? (fun p => p.1 == k) = none := by
      unfold lookupAssoc at hunt
      exact Option.map_eq_none'.mp hunt
    have := List.find?_eq_none.mp hfind p hp
    simpa using this
  rw [applyOneRule_headers]
  by_cases hb : pr.1.block = true
  · have hkne : k ≠ "Content-Type" := by
      rcases hct with hct | hct
      · exact hct
      · rw [hb] at hct; exact absurd hct (by simp)
    rw [if_pos hb, lookupAssoc_set_other _ _ _ _ hkne,
      lookupAssoc_merge_untouched _ _ _ hkeys]
    exact hk
  · rw [if_neg hb, lookupAssoc_merge_untouched _ _ _ hkeys]
    exact hk

/-- Folding rules that do not mention a key preserves that key's header
value, blocking rules included when the key is not Content-Type. -/
theorem foldl_header_untouched (l : List RulePair) (h0 : ResponseHolder)
    (k v : String) (hk : lookupAssoc h0.headers k = some v)
    (huntouched : ∀ pr ∈ l, lookupAssoc pr.1.response.headers k = none)
    (hct : k ≠ "Content-Type" ∨ ∀ pr ∈ l, pr.1.block = false) :
    lookupAssoc ((l.foldl applyOneRule h0).headers) k = some v := by
  induction l generalizing h0 with
  | nil => exact hk
  | cons pr rest ih =>
    simp only [List.foldl_cons]
    have hstep : lookupAssoc (applyOneRule h0 pr).headers k = some v := by
      refine applyOneRule_header_untouched h0 pr k v hk (huntouched pr (by simp)) ?_
      rcases hct with hct | hct
      · exact Or.inl hct
      · exact Or.inr (hct pr (by simp))
    refine ih (applyOneRule h0 pr) hstep (fun q hq => huntouched q (by simp [hq])) ?_
    rcases hct with hct | hct
    · exact Or.inl hct
    · exact Or.inr (fun q hq => hct q (by simp [hq]))

/-- Claim C3: in govern, each applicable rule's response headers are
shallow-merged with last-writer-wins per key, so a header set by an earlier
rule and untouched afterwards persists in the final headers alongside those
of a later blocking rule; and a blocking rule forces the header
Content-Type to application/json, overwriting any prior value. -/
theorem govern_header_merge (m : String → String → Bool) (store : RuleStore)
    (config : GovConfig) (uid cid : Option String) (req : Request)
    (l1 l2 : List RulePair) (k v : String) (r : Rule) (vals : List (String × String))
    (hsplit : governApplicablePairs m store config uid cid req = l1 ++ l2)
    (hk : lookupAssoc ((l1.foldl applyOneRule {}).headers) k = some v)
    (huntouched : ∀ pr ∈ l2, lookupAssoc pr.1.response.headers k = none)
    (hct : k ≠ "Content-Type" ∨ ∀ pr ∈ l2, pr.1.block = false)
    (hb : r.block = true) :
    lookupAssoc ((governRequest m store config uid cid req).headers) k = some v
    ∧ lookupAssoc ((applyOneRule (l1.foldl applyOneRule {}) (r, vals)).headers)
        "Content-Type" = some "application/json" := by
  constructor
  · unfold governRequest
    rw [hsplit, List.foldl_append]
    exact foldl_header_untouched l2 _ k v hk huntouched hct
  · rw [applyOneRule_headers]
    simp only [hb, if_true]
    exact lookupAssoc_set_self _ _ _

/-- Witness for C3: in the integration scenario the company header
X-Company-Plan: Gold, merged before the blocking user rule, persists in the
final headers, and the blocking rule forces Content-Type. -/
theorem govern_header_merge_witness :
    lookupAssoc ((governRequest substrMatch storeEx configEx
        (some "user123") (some "companyABC") reqEx).headers) "X-Company-Plan"
      = some "Gold"
    ∧ lookupAssoc ((applyOneRule
        (([(regexRuleEx, ([] : List (String × String))),
           (companyHeaderRuleEx, [("company.plan", "Gold")])] : List RulePair).foldl
          applyOneRule {})
        (userBlockRuleEx, [("user.name", "Alice")])).headers) "Content-Type"
      = some "application/json" := by
  refine govern_header_merge substrMatch storeEx configEx
    (some "user123") (some "companyABC") reqEx
    [(regexRuleEx, []), (companyHeaderRuleEx, [("company.plan", "Gold")])]
    [(userBlockRuleEx, [("user.name", "Alice")])]
    "X-Company-Plan" "Gold" userBlockRuleEx [("user.name", "Alice")]
    rfl rfl ?_ (Or.inl (by decide)) rfl
  intro pr hpr
  simp only [List.mem_cons, List.not_mem_nil, or_false] at hpr
  subst hpr
  rfl

/-- Claim C2: when a blocking regex rule (status 403) is applicable and
the user-cohort applicable list ends with a blocking rule of status 401,
govern — which processes categories in the fixed order regex, company,
user — returns status 401 and that user rule's id as blocked_by, the later
block rule fully superseding the earlier one's status, body and
blocked_by. -/
theorem govern_later_block_supersedes (m : String → String → Bool)
    (store : RuleStore) (config : GovConfig) (uid cid : Option String) (req : Request)
    (rr u : Rule) (l1 : List Rule)
    (hrr : rr ∈ store.regexRules) (hrrm : regexRuleMatches m rr req = true)
    (hrrb : rr.block = true) (hrrs : rr.response.status = some 403)
    (hu : getApplicableRulesForUserId uid config store = l1 ++ [u])
    (hub : u.block = true) (hus : u.response.status = some 401) :
    (governRequest m store config uid cid req).status = some 401
    ∧ (governRequest m store config uid cid req).blocked_by = some u._id
    ∧ (governRequest m store config uid cid req).body
        = u.response.body.map
            (renderValue (governRequest m store config uid cid req).vars) := by
  unfold governRequest governApplicablePairs
  rw [hu]
  simp only [List.map_append, List.map_cons, List.map_nil, List.foldl_append,
    List.foldl_cons, List.foldl_nil]
  unfold applyOneRule
  simp [hub, hus]

/-- Witness for C2 at the integration scenario: the user block rule (401)
supersedes the regex block rule (403). -/
theorem govern_later_block_supersedes_witness :
    (governRequest substrMatch storeEx configEx (some "user123") (some "companyABC") reqEx).status
      = some 401
    ∧ (governRequest substrMatch storeEx configEx (some "user123") (some "companyABC") reqEx).blocked_by
      = some userBlockRuleEx._id
    ∧ (governRequest substrMatch storeEx configEx (some "user123") (some "companyABC") reqEx).body
      = userBlockRuleEx.response.body.map
          (renderValue (governRequest substrMatch storeEx configEx
            (some "user123") (some "companyABC") reqEx).vars) :=
  govern_later_block_supersedes substrMatch storeEx configEx
    (some "user123") (some "companyABC") reqEx regexRuleEx userBlockRuleEx []
    (List.Mem.head _) rfl rfl rfl rfl rfl rfl

/-- The inner scan closes at the first double closing brace. -/
theorem scanInner_closes (inner tail : List Char) (h : ∀ c ∈ inner, c ≠ rbrace) :
    scanInner (inner ++ rbrace :: rbrace :: tail) = some (inner, tail) := by
  induction inner with
  | nil =>
    simp only [List.nil_append]
    rw [scanInner, if_pos ⟨rfl, rfl⟩]
    rfl
  | cons c cs ih =>
    have hc : c ≠ rbrace := h c (by simp)
    have hcs : ∀ x ∈ cs, x ≠ rbrace := fun x hx => h x (by simp [hx])
    simp only [List.cons_append]
    rw [scanInner, if_neg (fun hh => hc hh.1), ih hcs]
    rfl

/-- The fuel scan of an empty template is empty at every fuel. -/
theorem scanTemplateFuel_nil (fuel : Nat) : scanTemplateFuel fuel [] = [] := by
  cases fuel <;> rfl

/-- The fuel scan of a single well-formed placeholder yields exactly that
placeholder segment. -/
theorem scanTemplateFuel_placeholder (fuel : Nat) (inner : List Char)
    (h : ∀ c ∈ inner, c ≠ rbrace) :
    scanTemplateFuel (fuel + 1) (lbrace :: lbrace :: (inner ++ [rbrace, rbrace]))
      = [mkPlaceholder inner] := by
  rw [scanTemplateFuel, if_pos ⟨rfl, rfl⟩]
  simp only [List.tail_cons]
  rw [scanInner_closes inner [] h]
  show mkPlaceholder inner :: scanTemplateFuel fuel [] = [mkPlaceholder inner]
  rw [scanTemplateFuel_nil]

/-- The scan of a single well-formed placeholder yields exactly that
placeholder segment. -/
theorem scanTemplate_placeholder (inner : List Char) (h : ∀ c ∈ inner, c ≠ rbrace) :
    scanTemplate (lbrace :: lbrace :: (inner ++ [rbrace, rbrace]))
      = [mkPlaceholder inner] := by
  unfold scanTemplate
  have hlen : (lbrace :: lbrace :: (inner ++ [rbrace, rbrace])).length
      = inner.length + 3 + 1 := by
    simp only [List.length_cons, List.length_append, List.length_nil]
  rw [hlen]
  exact scanTemplateFuel_placeholder _ _ h

/-- A pipe-free inner text parses as a bare placeholder name. -/
theorem mkPlaceholder_no_pipe (name : String) (h : ∀ c ∈ name.data, c ≠ pipeChar) :
    mkPlaceholder name.data = Segment.placeholder name none := by
  unfold mkPlaceholder
  rw [if_neg (fun hmem => h pipeChar hmem rfl)]

/-- takeWhile and dropWhile split an inner text at its first pipe. -/
theorem takeWhile_stops (xs ys : List Char) (hxs : ∀ x ∈ xs, x ≠ pipeChar) :
    (xs ++ pipeChar :: ys).takeWhile notPipe = xs
    ∧ (xs ++ pipeChar :: ys).dropWhile notPipe = pipeChar :: ys := by
  have hpipe : notPipe pipeChar = false := by simp [notPipe]
  induction xs with
  | nil =>
    constructor
    · rw [List.nil_append, List.takeWhile_cons, hpipe]
      rfl
    · rw [List.nil_append, List.dropWhile_cons, hpipe]
      rfl
  | cons x xs ih =>
    have hx : notPipe x = true := by
      simp [notPipe]
      exact hxs x (by simp)
    have hxs' : ∀ q ∈ xs, q ≠ pipeChar := fun q hq => hxs q (by simp [hq])
    obtain ⟨ht, hd⟩ := ih hxs'
    constructor
    · rw [List.cons_append, List.takeWhile_cons, hx]
      simp only [if_true, ht]
    · rw [List.cons_append, List.dropWhile_cons, hx]
      simp only [if_true, hd]

/-- An inner text with a pipe parses as a name with a default. -/
theorem mkPlaceholder_pipe (name dflt : String) (h : ∀ c ∈ name.data, c ≠ pipeChar) :
    mkPlaceholder (name.data ++ pipeChar :: dflt.data)
      = Segment.placeholder name (some dflt) := by
  unfold mkPlaceholder
  rw [if_pos (List.mem_append_right _ (List.mem_cons_self _ _))]
  obtain ⟨ht, hd⟩ := takeWhile_stops name.data dflt.data h
  rw [ht, hd]
  rfl

/-- Joining a single string is that string. -/
theorem join_singleton (s : String) : String.join [s] = s := rfl

/-- Claim C4: for a placeholder `\x7b\x7bname\x7d\x7d` or
`\x7b\x7bname|default\x7d\x7d` rendered against a variable map, the
interpolator substitutes the variable's value when the name is present;
when absent with a default it substitutes the default; when absent without
one it substitutes the literal text UNKNOWN — by total evaluation, never an
error. -/
theorem render_placeholder (vars : List (String × String)) (name dflt : String)
    (hname : ∀ c ∈ name.data, c ≠ rbrace ∧ c ≠ pipeChar)
    (hdflt : ∀ c ∈ dflt.data, c ≠ rbrace) :
    renderString vars (String.mk (lbrace :: lbrace :: (name.data ++ [rbrace, rbrace])))
      = ((lookupAssoc vars name).getD "UNKNOWN")
    ∧ renderString vars (String.mk
        (lbrace :: lbrace :: ((name.data ++ pipeChar :: dflt.data) ++ [rbrace, rbrace])))
      = ((lookupAssoc vars name).getD dflt) := by
  constructor
  · unfold renderString
    rw [show (String.mk (lbrace :: lbrace :: (name.data ++ [rbrace, rbrace]))).data
        = lbrace :: lbrace :: (name.data ++ [rbrace, rbrace]) from rfl]
    rw [scanTemplate_placeholder name.data (fun c hc => (hname c hc).1)]
    rw [mkPlaceholder_no_pipe name (fun c hc => (hname c hc).2)]
    rw [List.map_cons, List.map_nil, join_singleton]
    cases hl : lookupAssoc vars name <;> simp [resolveSegment, hl]
  · have hinner : ∀ c ∈ name.data ++ pipeChar :: dflt.data, c ≠ rbrace := by
      intro c hc
      rcases List.mem_append.mp hc with hc | hc
      · exact (hname c hc).1
      · rcases List.mem_cons.mp hc with rfl | hc
        · decide
        · exact hdflt c hc
    unfold renderString
    rw [show (String.mk (lbrace :: lbrace ::
        ((name.data ++ pipeChar :: dflt.data) ++ [rbrace, rbrace]))).data
        = lbrace :: lbrace :: ((name.data ++ pipeChar :: dflt.data) ++ [rbrace, rbrace])
        from rfl]
    rw [scanTemplate_placeholder _ hinner]
    rw [mkPlaceholder_pipe name dflt (fun c hc => (hname c hc).2)]
    rw [List.map_cons, List.map_nil, join_singleton]
    cases hl : lookupAssoc vars name <;> simp [resolveSegment, hl]

/-- Witness for C4: `user.name` renders as Alice when bound, Friend when
the defaulted placeholder is unbound, and UNKNOWN without a default. -/
theorem render_placeholder_witness :
    renderString [("user.name", "Alice")]
      (String.mk (lbrace :: lbrace :: ("user.name".data ++ [rbrace, rbrace]))) = "Alice"
    ∧ renderString []
      (String.mk (lbrace :: lbrace ::
        (("user.name".data ++ pipeChar :: "Friend".data) ++ [rbrace, rbrace]))) = "Friend"
    ∧ renderString []
      (String.mk (lbrace :: lbrace :: ("not.provided".data ++ [rbrace, rbrace]))) = "UNKNOWN" := by
  refine ⟨?_, ?_, ?_⟩
  · rw [(render_placeholder [("user.name", "Alice")] "user.name" "Friend"
      (by decide) (by decide)).1]
    rfl
  · rw [(render_placeholder [] "user.name" "Friend" (by decide) (by decide)).2]
    rfl
  · rw [(render_placeholder [] "not.provided" "Friend" (by decide) (by decide)).1]
    rfl

end Moesif
